import Mathlib

/-!
Verification of http-prompt's `cli.py` (the context/execution engine entry
point).  Python strings are embedded as `List Char`; Python dicts
(`context.headers`, cookie jars, response cookies) as association lists with
first-occurrence-wins position and last-write-wins value, mirroring CPython
dict assignment semantics.  The stdlib `http.cookies.SimpleCookie` machinery
that `update_cookies` calls is modelled with its failure modes: the
all-or-nothing parse of `BaseCookie.load` (an invalid cookie string loads
nothing), the `CookieError` raised by `Morsel.set` on reserved or illegal
keys, and the `_quote` encoding of values on output.  Header strings using
SimpleCookie features beyond this fragment (morsel attributes, `$`-keys,
double-quoted values, space or comma separators) are mapped to `none` and no
theorem speaks about them.
-/

/-- `p` is a prefix of `s` (model of Python's `str.startswith`). -/
def strStartsWith : List Char → List Char → Bool
  | [], _ => true
  | _ :: _, [] => false
  | p :: ps, c :: cs => p == c && strStartsWith ps cs

/-- Model of Python's `str.lstrip()`: drop leading whitespace. -/
def pyLstrip (s : List Char) : List Char :=
  s.dropWhile (fun c => c.isWhitespace)

/-- Model of Python's `str.rstrip()`: drop trailing whitespace. -/
def pyRstrip (s : List Char) : List Char :=
  (pyLstrip s.reverse).reverse

/-- Model of Python's `str.strip()`. -/
def pyStrip (s : List Char) : List Char :=
  pyLstrip (pyRstrip s)

/-- Split a char list on the character `';'`. -/
def splitSemi : List Char → List (List Char)
  | [] => [[]]
  | c :: cs =>
    if c = ';' then [] :: splitSemi cs
    else
      match splitSemi cs with
      | [] => [[c]]
      | g :: gs => (c :: g) :: gs

/-- Split a char list at the first `'='`, returning the parts before and
after it, or `none` when no `'='` occurs. -/
def splitFirstEq : List Char → Option (List Char × List Char)
  | [] => none
  | c :: cs =>
    if c = '=' then some ([], cs)
    else
      match splitFirstEq cs with
      | none => none
      | some (k, v) => some (c :: k, v)

/-- Model of Python's `str.lower()` (ASCII keys only arise here). -/
def lowerStr (s : List Char) : List Char :=
  s.map Char.toLower

/-- Python-dict-style lookup in an association list (keys are unique in the
states the program builds, so first match is the binding). Models
`d.get(k)` / morsel lookup. -/
def dictGet {α : Type} : List (List Char × α) → List Char → Option α
  | [], _ => none
  | (k', v') :: rest, k => if k' = k then some v' else dictGet rest k

/-- Python-dict-style assignment `d[k] = v`: overwrite the value in place if
the key is present, else append the new binding. -/
def dictSet {α : Type} : List (List Char × α) → List Char → α →
    List (List Char × α)
  | [], k, v => [(k, v)]
  | (k', v') :: rest, k, v =>
    if k' = k then (k, v) :: rest else (k', v') :: dictSet rest k v

/-- A character of `http.cookies._LegalChars`: ASCII letters, digits, and
`!#$%&'*+-.^_`|~:` (the apostrophe and backtick written by code point). -/
def legalKeyChar (c : Char) : Bool :=
  c.isAlphanum ||
  ['!', '#', '$', '%', '&', '*', '+', '-', '.', '^', '_', '|', '~',
   ':'].contains c ||
  c = Char.ofNat 39 || c = Char.ofNat 96

/-- Model of `http.cookies._is_legal_key`: a non-empty run of legal
characters (`[_LegalChars]+` fullmatch). -/
def isLegalKey (k : List Char) : Bool :=
  !k.isEmpty && k.all legalKeyChar

/-- A character of `http.cookies._UnescapedChars` (`_LegalChars` plus
`space ()/<=>?@[]{}`): left unescaped inside a quoted cookie value. -/
def unescapedChar (c : Char) : Bool :=
  legalKeyChar c ||
  [' ', '(', ')', '/', '<', '=', '>', '?', '@', '[', ']', '{',
   '}'].contains c

/-- One character through `http.cookies._Translator`: `"` and `\` get a
backslash escape, unescaped characters pass through, other Latin-1 code
points become a three-digit octal escape, and code points at or above 256
(absent from the translation table) pass through unchanged. -/
def translateChar (c : Char) : List Char :=
  if c = '"' then ['\\', '"']
  else if c = '\\' then ['\\', '\\']
  else if unescapedChar c then [c]
  else if c.toNat < 256 then
    ['\\', Char.ofNat (48 + c.toNat / 64), Char.ofNat (48 + c.toNat / 8 % 8),
     Char.ofNat (48 + c.toNat % 8)]
  else [c]

/-- Model of `http.cookies._quote`: a value that is itself a legal key token
is emitted raw; anything else is emitted double-quoted with `_Translator`
escapes.  `Morsel.coded_value` of a value set through `cookie[k] = v`. -/
def quoteValue (v : List Char) : List Char :=
  if isLegalKey v then v else '"' :: ((v.map translateChar).flatten ++ ['"'])

/-- A character the `_CookiePattern` regex accepts in a cookie key
(`_LegalKeyChars`: `\w`, digits, and `!#%&'~_`><@,:/$*+-.^|)(?}{=`). -/
def richKeyChar (c : Char) : Bool :=
  c.isAlphanum ||
  ['_', '!', '#', '%', '&', '~', '>', '<', '@', ',', ':', '/', '$', '*',
   '+', '-', '.', '^', '|', ')', '(', '?', '}', '{', '='].contains c ||
  c = Char.ofNat 39 || c = Char.ofNat 96

/-- A character the `_CookiePattern` regex accepts in an unquoted cookie
value (`_LegalValueChars` = `_LegalKeyChars` plus `[]`). -/
def richValChar (c : Char) : Bool :=
  richKeyChar c || c = '[' || c = ']'

/-- The lowercase reserved morsel attribute names of `Morsel._reserved`. -/
def reservedKeys : List (List Char) :=
  ["expires".toList, "path".toList, "comment".toList, "domain".toList,
   "max-age".toList, "secure".toList, "httponly".toList, "version".toList,
   "samesite".toList]

/-- A cookie jar: morsels keyed by cookie name, each holding `(value,
coded_value)` as in `http.cookies.Morsel` (attributes are outside the
modelled fragment). -/
abbrev Jar : Type := List (List Char × (List Char × List Char))

/-- Outcome of scanning the parts of a cookie string, mirroring
`BaseCookie.__parse_string`'s control flow. -/
inductive ParseOutcome where
  | ok (items : List (List Char × List Char))
  | aborted
  | outside
deriving DecidableEq, Repr

/-- Modelled from CPython's `BaseCookie.__parse_string` over `';'`-separated
parts.  A part that is empty after stripping stops the scan and keeps the
items collected so far (the regex stops matching).  A `key=value` part with
a legal unquoted shape is collected, except that a reserved key aborts the
whole load when no morsel was seen yet (`Invalid cookie string`) and is a
morsel attribute — outside the fragment — otherwise.  A bare word aborts the
whole load unless it is reserved (a flag attribute, outside the fragment).
Everything else (`$`-keys, quoted values, characters the pattern rejects) is
outside the modelled fragment. -/
def collectItems : Bool → List (List Char) → ParseOutcome
  | _, [] => ParseOutcome.ok []
  | seen, p :: rest =>
    let q := pyStrip p
    if q = [] then ParseOutcome.ok []
    else if q.head? = some '$' then ParseOutcome.outside
    else
      match splitFirstEq q with
      | some (k0, v0) =>
        let k := pyRstrip k0
        let v := pyLstrip v0
        if !k.isEmpty && k.all richKeyChar && v.all richValChar then
          if reservedKeys.contains (lowerStr k) then
            if seen then ParseOutcome.outside else ParseOutcome.aborted
          else
            match collectItems true rest with
            | ParseOutcome.ok items => ParseOutcome.ok ((k, v) :: items)
            | r => r
        else ParseOutcome.outside
      | none =>
        if q.all richKeyChar then
          if reservedKeys.contains (lowerStr q) then ParseOutcome.outside
          else ParseOutcome.aborted
        else ParseOutcome.outside

/-- `BaseCookie.load` on a string: all-or-nothing — an invalid cookie string
loads nothing (`some []`), a valid one dict-assigns each collected
`key=value` item in order (value = coded_value for unquoted values), and
`none` marks strings outside the modelled fragment. -/
def parseCookieHeader (s : List Char) : Option Jar :=
  match collectItems false (splitSemi s) with
  | ParseOutcome.ok items =>
    some (items.foldl (fun jar kv => dictSet jar kv.1 (kv.2, kv.2)) [])
  | ParseOutcome.aborted => some []
  | ParseOutcome.outside => none

/-- `SimpleCookie(base_value)`: a falsy input (`None`, `''`) loads
nothing. -/
def simpleCookie : Option (List Char) → Option Jar
  | none => some []
  | some s => if s = [] then some [] else parseCookieHeader s

/-- Lexicographic comparison of char lists by code point (Python `str`
comparison), used because `BaseCookie.output` sorts its items by key. -/
def lexLe : List Char → List Char → Bool
  | [], _ => true
  | _ :: _, [] => false
  | a :: as, b :: bs => if a = b then lexLe as bs else decide (a < b)

/-- Insertion step of sorting the jar items by key. -/
def insertByKey (x : List Char × (List Char × List Char)) :
    Jar → Jar
  | [] => [x]
  | y :: ys => if lexLe x.1 y.1 then x :: y :: ys else y :: insertByKey x ys

/-- Sort jar items by key (model of `sorted(self.items())`). -/
def sortByKey (l : Jar) : Jar :=
  l.foldr insertByKey []

/-- One item of `BaseCookie.output(header='')`: `'' + ' ' +
'key=coded_value'` (`Morsel.OutputString` with no attributes). -/
def morselOutput (kv : List Char × (List Char × List Char)) : List Char :=
  ' ' :: (kv.1 ++ '=' :: kv.2.2)

/-- `cookie.output(header='', sep=';').lstrip()`: sort items by key, render
each as `' key=coded_value'`, join with `';'`, strip the leading space. -/
def cookieOutput (jar : Jar) : List Char :=
  pyLstrip (List.intercalate [';'] ((sortByKey jar).map morselOutput))

/-- The `CookieError` raised by `Morsel.set` when a cookie is assigned
under a reserved or illegal key. -/
inductive CookieError where
  | reservedKey (k : List Char)
  | illegalKey (k : List Char)
deriving DecidableEq, Repr

/-- A computation that either produced a value or raised `CookieError`. -/
inductive CookieResult (α : Type) where
  | ok (val : α)
  | error (e : CookieError)
deriving DecidableEq, Repr

/-- The loop `for k, v in cookies.items(): cookie[k] = v`: each assignment
goes through `Morsel.set`, which raises `CookieError` on a reserved key
(checked first) or an illegal key; a legal assignment stores the value with
its `_quote`d coded value. -/
def setCookies (jar : Jar) : List (List Char × List Char) →
    CookieResult Jar
  | [] => CookieResult.ok jar
  | (k, v) :: rest =>
    if reservedKeys.contains (lowerStr k) then
      CookieResult.error (CookieError.reservedKey k)
    else if !isLegalKey k then
      CookieResult.error (CookieError.illegalKey k)
    else setCookies (dictSet jar k (v, quoteValue v)) rest

/-- `cli.update_cookies` (cli.py lines 50-54): parse the existing header
with `SimpleCookie`, dict-assign each incoming cookie, re-serialize.
`none` marks an existing header outside the modelled SimpleCookie fragment;
`CookieResult.error` is the `CookieError` escaping from the assignment
loop, in which case no header string is produced. -/
def update_cookies (base_value : Option (List Char))
    (cookies : List (List Char × List Char)) :
    Option (CookieResult (List Char)) :=
  match simpleCookie base_value with
  | none => none
  | some jar =>
    match setCookies jar cookies with
    | CookieResult.error e => some (CookieResult.error e)
    | CookieResult.ok jar2 => some (CookieResult.ok (cookieOutput jar2))

/-- `cli.fix_incomplete_url` (cli.py lines 40-47). -/
def fix_incomplete_url (url : List Char) : List Char :=
  if strStartsWith "s://".toList url || strStartsWith "://".toList url then
    "http".toList ++ url
  else if strStartsWith "//".toList url then
    "http:".toList ++ url
  else if !(strStartsWith "http://".toList url ||
            strStartsWith "https://".toList url) then
    "http://".toList ++ url
  else
    url

/-- The url carries a full scheme: it starts with `http://` or
`https://`. -/
def hasFullScheme (s : List Char) : Bool :=
  strStartsWith "http://".toList s || strStartsWith "https://".toList s

/-- Modelled from the spec: `Context` (context.py, not under src/) — the
mutable request-building state of section 3 of the design: url, headers,
query params, body params, options, and the `should_exit` flag. -/
structure Context where
  url : List Char
  headers : List (List Char × List Char)
  query_params : List (List Char × List Char)
  body_params : List (List Char × List Char)
  options : List (List Char × List Char)
  should_exit : Bool
deriving DecidableEq, Repr

/-- The part of the request executor's response that cli.py inspects: the
`cookies` mapping. -/
structure Response where
  cookies : List (List Char × List Char)
deriving DecidableEq, Repr

/-- The `set_cookies` preference resolved by line 70 of cli.py:
`self.cfg.get('set_cookies') or 'auto'` — an absent or falsy (empty) config
value defaults to `'auto'`. -/
def cookiePref (set_cookies_cfg : Option (List Char)) : List Char :=
  match set_cookies_cfg with
  | none => "auto".toList
  | some s => if s = [] then "auto".toList else s

/-- `ExecutionListener.response_returned` (cli.py lines 66-77).  The config
value for `set_cookies` and the answer the user would give to
`click.confirm` are passed as parameters.  The result is `none` when the
stored `Cookie` header lies outside the modelled SimpleCookie fragment,
`CookieResult.error` when `update_cookies` raises `CookieError` (the
header assignment never runs), and otherwise the context as the listener
leaves it. -/
def response_returned (set_cookies_cfg : Option (List Char)) (confirm : Bool)
    (context : Context) (response : Response) :
    Option (CookieResult Context) :=
  if response.cookies = [] then some (CookieResult.ok context)
  else if cookiePref set_cookies_cfg = "auto".toList ∨
      (cookiePref set_cookies_cfg = "ask".toList ∧ confirm) then
    match update_cookies (dictGet context.headers "Cookie".toList)
        response.cookies with
    | none => none
    | some (CookieResult.error e) => some (CookieResult.error e)
    | some (CookieResult.ok new_cookie) =>
      some (CookieResult.ok { context with
        headers := dictSet context.headers "Cookie".toList new_cookie })
  else some (CookieResult.ok context)

/-- Modelled from the spec: `save_context` (Context Persistence,
contextio.py, not under src/) — `save(context)` writes a structured snapshot
of the context, overwriting the prior one; the persistence store is passed
and returned explicitly. -/
def save_context (store : Option Context) (context : Context) :
    Option Context :=
  let _ := store
  some context

/-- `ExecutionListener.context_changed` (cli.py lines 62-64): dump the
current context by calling `save_context` on it. -/
def context_changed (store : Option Context) (context : Context) :
    Option Context :=
  save_context store context

/-- Why the REPL loop of cli.py (lines 176-187) stopped. -/
inductive ExitReason where
  | eof
  | shouldExit
deriving DecidableEq, Repr

/-- The REPL loop of cli.py (lines 176-187).  `execute` is the execution
engine (execution.py, not under src/; modelled from the spec as a total
function on the context, since section 7 states every processing error is
local to its line and never terminates the loop).  The user's keystrokes are
a list of events: `none` is an end-of-input signal (`EOFError` from
`prompt`), `some text` a submitted line.  The result is the exit reason and
final context, or `none` if the event list ran out with the loop still
running. -/
def replLoop (execute : List Char → Context → Context) :
    List (Option (List Char)) → Context → Option (ExitReason × Context)
  | [], _ => none
  | none :: _, ctx => some (ExitReason.eof, ctx)
  | some text :: rest, ctx =>
    let ctx2 := execute text ctx
    if ctx2.should_exit then some (ExitReason.shouldExit, ctx2)
    else replLoop execute rest ctx2

/-- A context-load performed at startup: either the default saved session
snapshot or an explicitly named `--env` source. -/
inductive LoadSource where
  | defaultSession
  | named (source : List Char)
deriving DecidableEq, Repr

/-- The startup seeding logic of cli.py (lines 161-166), recording which
loads of the persisted context happen.  `args` is `sys.argv[1:]`, so
`len(sys.argv) == 1` is `args = []`; `load_context` itself (contextio.py,
not under src/) is abstracted to the `LoadSource` it is given. -/
def startupLoads (args : List (List Char)) (env : Option (List Char)) :
    List LoadSource :=
  if args = [] then [LoadSource.defaultSession]
  else
    match env with
    | some e => [LoadSource.named e]
    | none => []

/-- The URL handed to `Context` at startup (cli.py lines 141-143): a truthy
(non-empty) URL argument is normalized by `fix_incomplete_url` first. -/
def initialUrl (url : List Char) : List Char :=
  if url = [] then url else fix_incomplete_url url

/-- A concrete context used to instantiate the listener and loop
theorems. -/
def sampleContext : Context :=
  { url := "http://example.org".toList, headers := [], query_params := [],
    body_params := [], options := [], should_exit := false }

/-- A concrete response carrying one cookie. -/
def sampleResponse : Response :=
  { cookies := [("a".toList, "1".toList)] }

/-- An execution engine that sets `should_exit` on any line (the `exit`
built-in). -/
def execQuit : List Char → Context → Context :=
  fun _ ctx => { ctx with should_exit := true }

/-- An execution engine that leaves the context unchanged. -/
def execNoop : List Char → Context → Context :=
  fun _ ctx => ctx

theorem strStartsWith_append (p t : List Char) :
    strStartsWith p (p ++ t) = true := by
  induction p with
  | nil => rfl
  | cons a as ih => simp [strStartsWith, ih]

theorem strStartsWith_iff (p s : List Char) :
    strStartsWith p s = true ↔ ∃ t, s = p ++ t := by
  induction p generalizing s with
  | nil => simp [strStartsWith]
  | cons a as ih =>
    cases s with
    | nil => simp [strStartsWith]
    | cons b bs =>
      simp only [strStartsWith, Bool.and_eq_true, beq_iff_eq, ih,
        List.cons_append, List.cons.injEq]
      constructor
      · rintro ⟨rfl, t, rfl⟩
        exact ⟨t, rfl, rfl⟩
      · rintro ⟨t, rfl, rfl⟩
        exact ⟨rfl, t, rfl⟩

theorem fix_s_slash (rest : List Char) :
    fix_incomplete_url ("s://".toList ++ rest) = "https://".toList ++ rest := by
  rw [fix_incomplete_url,
    if_pos (by rw [strStartsWith_append]; rfl), ← List.append_assoc]
  rfl

theorem fix_colon_slash (rest : List Char) :
    fix_incomplete_url ("://".toList ++ rest) = "http://".toList ++ rest := by
  rw [fix_incomplete_url,
    if_pos (by rw [strStartsWith_append, Bool.or_true]), ← List.append_assoc]
  rfl

theorem fix_slash_slash (rest : List Char) :
    fix_incomplete_url ("//".toList ++ rest) =
      "http:".toList ++ ("//".toList ++ rest) := by
  rw [fix_incomplete_url, if_neg (by simp [strStartsWith]),
    if_pos (strStartsWith_append _ _)]

theorem fix_default (url : List Char)
    (h1 : strStartsWith "s://".toList url = false)
    (h2 : strStartsWith "://".toList url = false)
    (h3 : strStartsWith "//".toList url = false)
    (h4 : strStartsWith "http://".toList url = false)
    (h5 : strStartsWith "https://".toList url = false) :
    fix_incomplete_url url = "http://".toList ++ url := by
  rw [fix_incomplete_url, if_neg (by simp only [h1, h2]; decide),
    if_neg (by simp only [h3]; decide), if_pos (by simp only [h4, h5]; decide)]

theorem fix_id_of_schemed (url : List Char) (h : hasFullScheme url = true) :
    fix_incomplete_url url = url := by
  rw [hasFullScheme, Bool.or_eq_true] at h
  rcases h with h | h <;> obtain ⟨t, rfl⟩ := (strStartsWith_iff _ _).mp h <;>
    rw [fix_incomplete_url, if_neg (by simp [strStartsWith]),
      if_neg (by simp [strStartsWith]), if_neg (by simp [strStartsWith])]

theorem hasFullScheme_fix (url : List Char) :
    hasFullScheme (fix_incomplete_url url) = true := by
  by_cases h1 : strStartsWith "s://".toList url = true
  · obtain ⟨t, rfl⟩ := (strStartsWith_iff _ _).mp h1
    rw [fix_s_slash, hasFullScheme]
    simp [strStartsWith]
  · by_cases h2 : strStartsWith "://".toList url = true
    · obtain ⟨t, rfl⟩ := (strStartsWith_iff _ _).mp h2
      rw [fix_colon_slash, hasFullScheme]
      simp [strStartsWith]
    · by_cases h3 : strStartsWith "//".toList url = true
      · obtain ⟨t, rfl⟩ := (strStartsWith_iff _ _).mp h3
        rw [fix_slash_slash, hasFullScheme]
        simp [strStartsWith]
      · by_cases h4 : strStartsWith "http://".toList url = true
        · rw [fix_id_of_schemed url (by rw [hasFullScheme, h4]; rfl),
            hasFullScheme, h4]
          rfl
        · by_cases h5 : strStartsWith "https://".toList url = true
          · rw [fix_id_of_schemed url (by rw [hasFullScheme, h5, Bool.or_true]),
              hasFullScheme, h5, Bool.or_true]
          · simp only [Bool.not_eq_true] at h1 h2 h3 h4 h5
            rw [fix_default url h1 h2 h3 h4 h5, hasFullScheme]
            simp [strStartsWith]

/-- C2: `fix_incomplete_url` maps each incomplete-URL shape as specified:
`//...` gets `http:` prepended, `://...` becomes `http://...`, `s://...`
becomes `https://...`, and anything not beginning with `http://`/`https://`
nor matching those shapes gets `http://` prepended. -/
theorem fix_incomplete_url_cases (rest url : List Char) :
    fix_incomplete_url ("//".toList ++ rest) =
      "http:".toList ++ ("//".toList ++ rest)
    ∧ fix_incomplete_url ("://".toList ++ rest) = "http://".toList ++ rest
    ∧ fix_incomplete_url ("s://".toList ++ rest) = "https://".toList ++ rest
    ∧ (strStartsWith "http://".toList url = false →
       strStartsWith "https://".toList url = false →
       strStartsWith "s://".toList url = false →
       strStartsWith "://".toList url = false →
       strStartsWith "//".toList url = false →
       fix_incomplete_url url = "http://".toList ++ url) :=
  ⟨fix_slash_slash rest, fix_colon_slash rest, fix_s_slash rest,
   fun h4 h5 h1 h2 h3 => fix_default url h1 h2 h3 h4 h5⟩

theorem fix_incomplete_url_cases_witness :
    fix_incomplete_url ("//".toList ++ "host".toList) =
      "http:".toList ++ ("//".toList ++ "host".toList)
    ∧ fix_incomplete_url "example.org".toList =
      "http://".toList ++ "example.org".toList :=
  ⟨(fix_incomplete_url_cases "host".toList "example.org".toList).1,
   (fix_incomplete_url_cases "host".toList "example.org".toList).2.2.2
     (by decide) (by decide) (by decide) (by decide) (by decide)⟩

/-- C3: every output of `fix_incomplete_url` starts with `http://` or
`https://`, and the startup URL argument (when truthy) is normalized by
`fix_incomplete_url` before the `Context` is created. -/
theorem fix_incomplete_url_always_schemed (url : List Char) :
    hasFullScheme (fix_incomplete_url url) = true
    ∧ (url ≠ [] → initialUrl url = fix_incomplete_url url) := by
  refine ⟨hasFullScheme_fix url, fun h => ?_⟩
  rw [initialUrl, if_neg h]

theorem fix_incomplete_url_always_schemed_witness :
    hasFullScheme (fix_incomplete_url "example.org".toList) = true
    ∧ initialUrl "example.org".toList =
      fix_incomplete_url "example.org".toList :=
  ⟨(fix_incomplete_url_always_schemed "example.org".toList).1,
   (fix_incomplete_url_always_schemed "example.org".toList).2 (by decide)⟩

/-- C8: `fix_incomplete_url` is idempotent, and is the identity on every
string already beginning with `http://` or `https://`. -/
theorem fix_incomplete_url_idempotent (url : List Char) :
    fix_incomplete_url (fix_incomplete_url url) = fix_incomplete_url url
    ∧ (hasFullScheme url = true → fix_incomplete_url url = url) :=
  ⟨fix_id_of_schemed _ (hasFullScheme_fix url),
   fun h => fix_id_of_schemed url h⟩

theorem fix_incomplete_url_idempotent_witness :
    fix_incomplete_url (fix_incomplete_url "example.org".toList) =
      fix_incomplete_url "example.org".toList
    ∧ fix_incomplete_url "http://example.org".toList =
      "http://example.org".toList :=
  ⟨(fix_incomplete_url_idempotent "example.org".toList).1,
   (fix_incomplete_url_idempotent "http://example.org".toList).2 (by decide)⟩

/-- C9: a response with an empty cookie mapping makes `response_returned`
return immediately, leaving the context entirely unchanged. -/
theorem response_returned_empty_noop (cfg : Option (List Char))
    (confirm : Bool) (ctx : Context) (resp : Response)
    (h : resp.cookies = []) :
    response_returned cfg confirm ctx resp = some (CookieResult.ok ctx) := by
  rw [response_returned, if_pos h]

theorem response_returned_empty_noop_witness :
    response_returned (some "auto".toList) true sampleContext
      { cookies := [] } = some (CookieResult.ok sampleContext) :=
  response_returned_empty_noop (some "auto".toList) true sampleContext
    { cookies := [] } rfl

/-- C10 counterexample: the configured `set_cookies` value `''` differs from
both `'auto'` and `'ask'`, yet `response_returned` still merges cookies into
the headers, because `self.cfg.get('set_cookies') or 'auto'` resolves the
falsy value to `'auto'`. -/
theorem response_returned_falsy_pref_merges :
    "".toList ≠ "auto".toList ∧ "".toList ≠ "ask".toList ∧
    response_returned (some "".toList) false sampleContext sampleResponse =
      some (CookieResult.ok { sampleContext with
        headers := [("Cookie".toList, "a=1".toList)] })
    ∧ [("Cookie".toList, "a=1".toList)] ≠ sampleContext.headers := by
  decide

/-- C10 (amended): for every `set_cookies` configuration whose resolved
preference (`cfg.get('set_cookies') or 'auto'`, so falsy values resolve to
`'auto'`) is neither `'auto'` nor `'ask'` (e.g. `'off'`), `response_returned`
never merges: the context (in particular its headers) is returned unchanged
regardless of the cookies the response carries; under a resolved `'ask'`,
the merge happens only if the user confirms — with the confirmation denied,
the context is returned unchanged. -/
theorem response_returned_non_auto_noop (cfg : Option (List Char))
    (confirm : Bool) (ctx : Context) (resp : Response) :
    (cookiePref cfg ≠ "auto".toList → cookiePref cfg ≠ "ask".toList →
      response_returned cfg confirm ctx resp = some (CookieResult.ok ctx))
    ∧ (cookiePref cfg = "ask".toList → confirm = false →
      response_returned cfg confirm ctx resp =
        some (CookieResult.ok ctx)) := by
  constructor
  · intro h1 h2
    rw [response_returned]
    split
    · rfl
    · rw [if_neg]
      rintro (h | ⟨h, _⟩)
      · exact h1 h
      · exact h2 h
  · intro h1 h2
    subst h2
    rw [response_returned]
    split
    · rfl
    · rw [h1, if_neg]
      rintro (h | ⟨_, h⟩)
      · exact absurd h (by decide)
      · exact absurd h (by decide)

theorem response_returned_non_auto_noop_witness :
    response_returned (some "off".toList) true sampleContext sampleResponse =
      some (CookieResult.ok sampleContext)
    ∧ response_returned (some "ask".toList) false sampleContext
        sampleResponse = some (CookieResult.ok sampleContext) :=
  ⟨(response_returned_non_auto_noop (some "off".toList) true sampleContext
      sampleResponse).1 (by decide) (by decide),
   (response_returned_non_auto_noop (some "ask".toList) false sampleContext
      sampleResponse).2 (by decide) rfl⟩

theorem replLoop_exit_cases (execute : List Char → Context → Context)
    (events : List (Option (List Char))) :
    ∀ ctx r c, replLoop execute events ctx = some (r, c) →
      r = ExitReason.eof ∨
        (r = ExitReason.shouldExit ∧ c.should_exit = true) := by
  induction events with
  | nil =>
    intro ctx r c h
    simp [replLoop] at h
  | cons e rest ih =>
    intro ctx r c h
    cases e with
    | none =>
      rw [replLoop] at h
      obtain ⟨rfl, rfl⟩ := Prod.mk.injEq .. ▸ Option.some.injEq .. ▸ h
      exact Or.inl rfl
    | some text =>
      have h2 : (if (execute text ctx).should_exit = true then
            some (ExitReason.shouldExit, execute text ctx)
          else replLoop execute rest (execute text ctx)) = some (r, c) := h
      by_cases hx : (execute text ctx).should_exit = true
      · rw [if_pos hx] at h2
        obtain ⟨rfl, rfl⟩ := Prod.mk.injEq .. ▸ Option.some.injEq .. ▸ h2
        exact Or.inr ⟨rfl, hx⟩
      · rw [if_neg hx] at h2
        exact ih _ _ _ h2

/-- C5: the REPL loop stops exactly on the two user-driven events — an
end-of-input signal stops it immediately with the context untouched, and a
line whose execution sets `should_exit` stops it right after that execute
call; a line whose execution leaves `should_exit` false just continues the
loop (execution is total, so no processing error can end it), and every
termination is one of those two cases. -/
theorem replLoop_termination (execute : List Char → Context → Context)
    (events : List (Option (List Char))) (ctx : Context) :
    replLoop execute (none :: events) ctx = some (ExitReason.eof, ctx)
    ∧ (∀ text, (execute text ctx).should_exit = true →
        replLoop execute (some text :: events) ctx =
          some (ExitReason.shouldExit, execute text ctx))
    ∧ (∀ text, (execute text ctx).should_exit = false →
        replLoop execute (some text :: events) ctx =
          replLoop execute events (execute text ctx))
    ∧ (∀ r c, replLoop execute events ctx = some (r, c) →
        r = ExitReason.eof ∨
          (r = ExitReason.shouldExit ∧ c.should_exit = true)) := by
  refine ⟨rfl, fun text hx => ?_, fun text hx => ?_,
    fun r c h => replLoop_exit_cases execute events ctx r c h⟩
  · show (if (execute text ctx).should_exit = true then _ else _) = _
    rw [if_pos hx]
  · show (if (execute text ctx).should_exit = true then _ else _) = _
    rw [if_neg (by simp [hx])]

theorem replLoop_termination_witness :
    replLoop execQuit (some "exit".toList :: []) sampleContext =
      some (ExitReason.shouldExit, execQuit "exit".toList sampleContext)
    ∧ replLoop execNoop (some "x".toList :: []) sampleContext =
      replLoop execNoop [] (execNoop "x".toList sampleContext)
    ∧ (ExitReason.shouldExit = ExitReason.eof ∨
       (ExitReason.shouldExit = ExitReason.shouldExit ∧
        (execQuit "exit".toList sampleContext).should_exit = true)) :=
  ⟨(replLoop_termination execQuit [] sampleContext).2.1 "exit".toList
      (by decide),
   (replLoop_termination execNoop [] sampleContext).2.2.1 "x".toList
      (by decide),
   (replLoop_termination execQuit [some "exit".toList] sampleContext).2.2.2
      ExitReason.shouldExit (execQuit "exit".toList sampleContext)
      (by decide)⟩

/-- C6: every invocation of the context-changed listener persists the
context it receives by calling `save_context` on it, so after the listener
runs the persistence store holds exactly that context. -/
theorem context_changed_persists (store : Option Context) (ctx : Context) :
    context_changed store ctx = save_context store ctx
    ∧ context_changed store ctx = some ctx :=
  ⟨rfl, rfl⟩

/-- C7: the startup seeding loads the default saved session snapshot exactly
when the process got no command-line arguments; with any argument present,
every load that happens names the explicit `--env` source. -/
theorem startup_seeding (args : List (List Char))
    (env : Option (List Char)) :
    (LoadSource.defaultSession ∈ startupLoads args env ↔ args = [])
    ∧ (args ≠ [] → ∀ l ∈ startupLoads args env,
        ∃ e, l = LoadSource.named e ∧ env = some e) := by
  constructor
  · by_cases hargs : args = []
    · subst hargs
      simp [startupLoads]
    · cases env with
      | none => simp [startupLoads, hargs]
      | some e => simp [startupLoads, hargs]
  · intro hargs l hl
    cases env with
    | none => simp [startupLoads, hargs] at hl
    | some e =>
      rw [startupLoads, if_neg hargs] at hl
      obtain rfl := List.mem_singleton.mp hl
      exact ⟨e, rfl, rfl⟩

theorem startup_seeding_witness :
    ∃ e, LoadSource.named "session.env".toList = LoadSource.named e ∧
      (some "session.env".toList : Option (List Char)) = some e :=
  (startup_seeding ["url".toList] (some "session.env".toList)).2
    (by decide) (LoadSource.named "session.env".toList) (by decide)
